import Mathlib

/-!
Shallow embedding of the mikky assistant core: the Context Manager
(`src/context.ts`), the Tool Registry (`src/tools/index.ts`) and the Agent
Loop (`src/agent.ts`).

External collaborators are parameters of the embedding:
* the tokenizer (`tiktoken`'s `countTokens`) is an arbitrary
  `tok : String → Nat`;
* the completion client (`chat` from `src/llm.ts`) is an arbitrary
  `chatFn : List Message → Except String Response`; a thrown provider error
  is the `Except.error` case and aborts the caller exactly where the
  `await` sits in the source;
* durable-storage writes are collected as a list of inserted rows.
-/

namespace Mikky

/-- One turn of the durable conversation history (`ConversationEntry` in
`src/context.ts`): role is the string literal "user" or "assistant". -/
structure ConversationEntry where
  role : String
  content : String
  timestamp : Nat
deriving DecidableEq

/-- A tool-invocation request issued by the model (Anthropic
`ToolUseBlock`): correlation id, tool name, and the argument bag (kept
opaque as a string). -/
structure ToolUseBlock where
  id : String
  name : String
  input : String
deriving DecidableEq

/-- One content block of a completion response: plain text, a
tool-invocation request, or any other block kind (thinking etc.), which
the agent code ignores. -/
inductive ContentBlock where
  | text (t : String)
  | toolUse (b : ToolUseBlock)
  | other (tag : String)
deriving DecidableEq

/-- A completion response: a list of content blocks. -/
structure Response where
  content : List ContentBlock
deriving DecidableEq

/-- A `tool_result` block of the synthetic user turn
(`Anthropic.ToolResultBlockParam` in `src/agent.ts`). -/
structure ToolResultBlock where
  tool_use_id : String
  content : String
deriving DecidableEq

/-- The content of a `Message` passed to the completion client: a plain
string, the raw response blocks (assistant tool-use turn), or a list of
tool results (synthetic user turn). -/
inductive MessageContent where
  | text (s : String)
  | blocks (bs : List ContentBlock)
  | toolResults (rs : List ToolResultBlock)
deriving DecidableEq

/-- The unit sent to the completion client (`Message` in `src/llm.ts`). -/
structure Message where
  role : String
  content : MessageContent
deriving DecidableEq

/-- A row inserted into the `conversation_log` table. -/
structure DBRow where
  role : String
  content : String
deriving DecidableEq

/-! ## Token accounting (`src/context.ts`) -/

/-- `MAX_CONTEXT_TOKENS` from `src/context.ts`. -/
def MAX_CONTEXT_TOKENS : Nat := 150000

/-- The pruning limit `MAX_CONTEXT_TOKENS * PRUNE_THRESHOLD` with
`PRUNE_THRESHOLD = 0.8`. In binary64 the product `150000 * 0.8` rounds to
exactly `120000.0` (the true product exceeds 120000 by about 6.7e-12,
under half an ulp, which is about 1.46e-11 there), and `getTotalTokens`
is integer-valued, so the Nat value `150000 * 8 / 10` models the source
comparison exactly. -/
def pruneLimit : Nat := MAX_CONTEXT_TOKENS * 8 / 10

/-- `SUMMARY_TARGET_TOKENS` from `src/context.ts`. -/
def SUMMARY_TARGET_TOKENS : Nat := 500

/-- `getTotalTokens()`: `history.reduce((sum, h) => sum + countTokens(h.content) + 4, 0)`. -/
def getTotalTokens (tok : String → Nat) (history : List ConversationEntry) : Nat :=
  history.foldl (fun sum h => sum + (tok h.content + 4)) 0

/-- `needsPruning()`: `getTotalTokens() > MAX_CONTEXT_TOKENS * PRUNE_THRESHOLD`. -/
def needsPruning (tok : String → Nat) (history : List ConversationEntry) : Bool :=
  getTotalTokens tok history > pruneLimit

/-! ## Summarization plumbing (`src/context.ts`) -/

/-- The plain-text transcript of a history segment:
`entries.map(h => role + ": " + content).join("\n\n")`. -/
def transcriptOf (entries : List ConversationEntry) : String :=
  String.intercalate "\n\n" (entries.map (fun h => h.role ++ ": " ++ h.content))

/-- The summarization instruction `prune()` sends (template literal in
`src/context.ts`, with `SUMMARY_TARGET_TOKENS` interpolated). -/
def prunePrompt (conversationText : String) : String :=
  "Summarize this conversation in a concise paragraph. Capture key facts, decisions, and context needed for continuity. Keep it under "
    ++ toString SUMMARY_TARGET_TOKENS ++ " tokens:\n\n" ++ conversationText

/-- The summarization instruction `compact()` sends; the template literal
spans a source line break, so the string contains "facts \nand". -/
def compactPrompt (conversationText : String) : String :=
  "Summarize this conversation concisely, capturing key facts \nand context:\n\n"
    ++ conversationText

/-- Text extraction from one content block (`b.type === "text"`). -/
def textOf : ContentBlock → Option String
  | ContentBlock.text t => some t
  | _ => none

/-- `response.content.filter(text).map(b => b.text).join("\n")`. -/
def joinedText (content : List ContentBlock) : String :=
  String.intercalate "\n" (content.filterMap textOf)

/-- Result of a `prune()` call: the history afterwards, the rows written
to durable storage during the call, and the value `prune` returned
(`none` models the `null` of the no-op guards). -/
structure CompactionOutcome where
  history : List ConversationEntry
  dbRows : List DBRow
  returned : Option String
deriving DecidableEq

/-- `prune()` from `src/context.ts`. The completion client is the
function argument `chatFn`; a thrown `chat` error is `Except.error` and
aborts before any mutation or insert, exactly as the `await` does. -/
def prune (tok : String → Nat) (chatFn : List Message → Except String Response)
    (history : List ConversationEntry) (now : Nat) :
    Except String CompactionOutcome :=
  if ¬ needsPruning tok history then Except.ok ⟨history, [], none⟩
  else
    let midpoint := history.length / 2
    if midpoint < 2 then Except.ok ⟨history, [], none⟩
    else
      let toSummarize := history.take midpoint
      let toKeep := history.drop midpoint
      let conversationText := transcriptOf toSummarize
      let summaryMessages : List Message :=
        [⟨"user", MessageContent.text (prunePrompt conversationText)⟩]
      match chatFn summaryMessages with
      | Except.error e => Except.error e
      | Except.ok response =>
        let summaryText := joinedText response.content
        Except.ok
          ⟨⟨"assistant", "[Context Summary] " ++ summaryText, now⟩ :: toKeep,
           [⟨"summary", summaryText⟩],
           some summaryText⟩

/-- Result of a `compact()` call: history afterwards, rows written, and
the returned status string. -/
structure CompactOutcome where
  history : List ConversationEntry
  dbRows : List DBRow
  status : String
deriving DecidableEq

/-- `compact()` from `src/context.ts`. `slice(0, -4)` is `take (len - 4)`
and `slice(-4)` is `drop (len - 4)` once `len ≥ 4`. -/
def compact (tok : String → Nat) (chatFn : List Message → Except String Response)
    (history : List ConversationEntry) (now : Nat) :
    Except String CompactOutcome :=
  let originalCount := history.length
  let originalTokens := getTotalTokens tok history
  if history.length < 4 then
    Except.ok ⟨history, [], "Not enough conversation history to compact."⟩
  else
    let keepCount := 4
    let toSummarize := history.take (history.length - keepCount)
    let toKeep := history.drop (history.length - keepCount)
    let conversationText := transcriptOf toSummarize
    let summaryMessages : List Message :=
      [⟨"user", MessageContent.text (compactPrompt conversationText)⟩]
    match chatFn summaryMessages with
    | Except.error e => Except.error e
    | Except.ok response =>
      let summaryText := joinedText response.content
      let newHistory : List ConversationEntry :=
        ⟨"assistant", "[Context Summary] " ++ summaryText, now⟩ :: toKeep
      let newTokens := getTotalTokens tok newHistory
      Except.ok
        ⟨newHistory,
         [⟨"summary", summaryText⟩],
         "Compacted: " ++ toString originalCount ++ " messages (" ++ toString originalTokens
           ++ " tokens) → " ++ toString newHistory.length ++ " messages ("
           ++ toString newTokens ++ " tokens)"⟩

/-- `getMessages()`: project history to completion-client messages. -/
def getMessages (history : List ConversationEntry) : List Message :=
  history.map (fun h => ⟨h.role, MessageContent.text h.content⟩)

/-! ## Tool registry (`src/tools/index.ts`) -/

/-- A registered tool (`Tool` interface). `execute` returning
`Except.error msg` models the tool body throwing an `Error` whose
`.message` is `msg`. -/
structure Tool where
  name : String
  description : String
  execute : String → Except String String

/-- The registry is a `Map` populated once at startup; we model it as the
insertion-ordered list of registered tools. -/
def registryHas (registry : List Tool) (name : String) : Bool :=
  registry.any (fun t => t.name == name)

/-- `registerTool`: throws `Tool "<name>" is already registered.` on a
duplicate name, else inserts. -/
def registerTool (registry : List Tool) (tool : Tool) : Except String (List Tool) :=
  if registryHas registry tool.name then
    Except.error ("Tool \"" ++ tool.name ++ "\" is already registered.")
  else
    Except.ok (registry ++ [tool])

/-- `getTool`: `registry.get(name)`; with unique names the first list hit
is the map entry. -/
def getTool (registry : List Tool) (name : String) : Option Tool :=
  registry.find? (fun t => t.name == name)

/-! ## JSON error payloads (`JSON.stringify({ error: ... })`) -/

/-- One hex digit, for JSON control-character escapes. -/
def hexDigit (n : Nat) : String :=
  if n < 10 then toString n
  else if n = 10 then "a"
  else if n = 11 then "b"
  else if n = 12 then "c"
  else if n = 13 then "d"
  else if n = 14 then "e"
  else "f"

/-- How `JSON.stringify` escapes one character inside a string value. -/
def jsonEscapeChar (c : Char) : String :=
  if c.toNat = 92 then "\\\\"
  else if c.toNat = 34 then "\\\""
  else if c.toNat = 10 then "\\n"
  else if c.toNat = 9 then "\\t"
  else if c.toNat = 13 then "\\r"
  else if c.toNat = 8 then "\\b"
  else if c.toNat = 12 then "\\f"
  else if c.toNat < 32 then "\\u00" ++ hexDigit (c.toNat / 16) ++ hexDigit (c.toNat % 16)
  else String.singleton c

/-- `JSON.stringify` of a string value. -/
def jsonStringify (s : String) : String :=
  "\"" ++ String.join (s.data.map jsonEscapeChar) ++ "\""

/-- `JSON.stringify({ error: msg })` = `\x7b"error":"..."\x7d`. -/
def jsonError (msg : String) : String :=
  "\x7b\"error\":" ++ jsonStringify msg ++ "\x7d"

/-! ## Agent loop (`src/agent.ts`) -/

/-- `response.content.filter(block => block.type === "tool_use")`. -/
def toolUseBlocksOf (content : List ContentBlock) : List ToolUseBlock :=
  content.filterMap (fun b =>
    match b with
    | ContentBlock.toolUse t => some t
    | _ => none)

/-- Resolve one tool-invocation request: unknown tool and thrown
execution errors become structured JSON error payloads; the result block
carries the request's own id. -/
def execToolUse (registry : List Tool) (toolUse : ToolUseBlock) : ToolResultBlock :=
  match getTool registry toolUse.name with
  | none => ⟨toolUse.id, jsonError ("Unknown tool: " ++ toolUse.name)⟩
  | some tool =>
    match tool.execute toolUse.input with
    | Except.ok result => ⟨toolUse.id, result⟩
    | Except.error msg => ⟨toolUse.id, jsonError ("Tool execution failed: " ++ msg)⟩

/-- The `toolResults` array built by the `for` loop, in request order. -/
def toolResultsFor (registry : List Tool) (content : List ContentBlock) :
    List ToolResultBlock :=
  (toolUseBlocksOf content).map (execToolUse registry)

/-- `textBlocks.map(b => b.text).join("\n") || "(no response)"` — the JS
`||` falls through to the fallback exactly when the join is empty. -/
def finalTextOf (content : List ContentBlock) : String :=
  let joined := joinedText content
  if joined = "" then "(no response)" else joined

/-- An apostrophe character, for building source string literals. -/
def apos : String := String.singleton (Char.ofNat 39)

/-- The fixed fallback returned when the iteration budget is exhausted. -/
def loopFallback : String :=
  "I" ++ apos ++ "m sorry, I got stuck in a loop. Please try rephrasing your question."

/-- Outcome of one iteration of the `while` loop in `runAgent`. -/
inductive StepOut where
  | final (text : String)
  | next (messages : List Message)
deriving DecidableEq

/-- One iteration of the `while` loop: call `chat`; with no tool-use
blocks, exit with the final text; otherwise push the assistant turn and
the synthetic user turn carrying the tool results and continue. -/
def loopStep (chatFn : List Message → Except String Response) (registry : List Tool)
    (messages : List Message) : Except String StepOut :=
  match chatFn messages with
  | Except.error e => Except.error e
  | Except.ok response =>
    let toolUseBlocks := toolUseBlocksOf response.content
    if toolUseBlocks.isEmpty then
      Except.ok (StepOut.final (finalTextOf response.content))
    else
      Except.ok (StepOut.next (messages ++
        [⟨"assistant", MessageContent.blocks response.content⟩,
         ⟨"user", MessageContent.toolResults (toolResultsFor registry response.content)⟩]))

/-- What the bounded loop produced: the text handed back, whether it came
from the model (versus the exhaustion fallback), and how many completion
calls the loop made. -/
structure LoopOutcome where
  text : String
  fromModel : Bool
  chatCalls : Nat
deriving DecidableEq

/-- The `while (iterations < maxAgentIterations)` loop, by fuel: fuel 0 is
the exhausted loop, which falls through to the fallback string with no
completion call. -/
def agentLoop (chatFn : List Message → Except String Response) (registry : List Tool) :
    Nat → List Message → Except String LoopOutcome
  | 0, _ => Except.ok ⟨loopFallback, false, 0⟩
  | fuel + 1, messages =>
    match loopStep chatFn registry messages with
    | Except.error e => Except.error e
    | Except.ok (StepOut.final text) => Except.ok ⟨text, true, 1⟩
    | Except.ok (StepOut.next messages2) =>
      match agentLoop chatFn registry fuel messages2 with
      | Except.error e => Except.error e
      | Except.ok outcome => Except.ok ⟨outcome.text, outcome.fromModel, outcome.chatCalls + 1⟩

/-- What one `runAgent` call produced: the reply, the Context Manager
history afterwards, the rows written to durable storage, and the total
number of completion calls (pruning included). -/
structure AgentResult where
  reply : String
  history : List ConversationEntry
  dbRows : List DBRow
  chatCalls : Nat
deriving DecidableEq

/-- `runAgent(userMessage)` from `src/agent.ts`: append the user entry,
prune when over threshold (the prune summarization shares the completion
client), project the history to messages, then run the bounded loop; the
final text, when the model produced one, is appended to the history as
the assistant entry, and the exhaustion fallback is returned without
being recorded. -/
def runAgent (tok : String → Nat) (chatFn : List Message → Except String Response)
    (registry : List Tool) (maxAgentIterations : Nat)
    (history0 : List ConversationEntry) (userMessage : String) (now : Nat) :
    Except String AgentResult :=
  let history1 := history0 ++ [⟨"user", userMessage, now⟩]
  let pruned : Except String (List ConversationEntry × List DBRow × Nat) :=
    if needsPruning tok history1 then
      match prune tok chatFn history1 now with
      | Except.error e => Except.error e
      | Except.ok outcome =>
        Except.ok (outcome.history, outcome.dbRows, if outcome.returned.isSome then 1 else 0)
    else Except.ok (history1, [], 0)
  match pruned with
  | Except.error e => Except.error e
  | Except.ok (history2, dbRows, pruneCalls) =>
    let messages := getMessages history2
    match agentLoop chatFn registry maxAgentIterations messages with
    | Except.error e => Except.error e
    | Except.ok outcome =>
      let history3 :=
        if outcome.fromModel then history2 ++ [⟨"assistant", outcome.text, now⟩]
        else history2
      Except.ok ⟨outcome.text, history3, dbRows, pruneCalls + outcome.chatCalls⟩

/-- How many completion calls the pruning step of `runAgent` makes: one
exactly when the appended history is over the threshold and long enough
for `prune` to pass its midpoint guard. -/
def pruneChatCalls (tok : String → Nat) (history1 : List ConversationEntry) : Nat :=
  if needsPruning tok history1 = true ∧ 4 ≤ history1.length then 1 else 0

/-- Projection used to state concrete facts about `Except` results. -/
def okValue {ε α : Type} : Except ε α → Option α
  | Except.ok a => some a
  | Except.error _ => none

/-! ## Concrete fixtures for witnesses and counterexamples -/

/-- A tokenizer charging 40000 tokens per character. -/
def tokHeavy : String → Nat := fun s => 40000 * s.length

/-- A completion response that only requests a tool call. -/
def respToolOnly : Response := ⟨[ContentBlock.toolUse ⟨"id1", "ping", "x"⟩]⟩

/-- A scripted completion client that always requests a tool call and
never returns text. -/
def chatToolOnly : List Message → Except String Response :=
  fun _ => Except.ok respToolOnly

/-- A three-entry starting history of three-character contents. -/
def histThree : List ConversationEntry :=
  [⟨"user", "abc", 0⟩, ⟨"assistant", "abc", 1⟩, ⟨"user", "abc", 2⟩]

/-- A four-entry history. -/
def histFour : List ConversationEntry :=
  [⟨"user", "q1", 0⟩, ⟨"assistant", "a1", 1⟩, ⟨"user", "q2", 2⟩, ⟨"assistant", "a2", 3⟩]

/-- A five-entry history of empty contents. -/
def histFive : List ConversationEntry :=
  [⟨"user", "", 0⟩, ⟨"assistant", "", 1⟩, ⟨"user", "", 2⟩, ⟨"assistant", "", 3⟩,
   ⟨"user", "", 4⟩]

/-- A two-entry history. -/
def histTwo : List ConversationEntry :=
  [⟨"user", "q1", 0⟩, ⟨"assistant", "a1", 1⟩]

/-- Fifty characters of summary text. -/
def longText : String := String.mk (List.replicate 50 'a')

/-- A completion client that answers every request with `longText`. -/
def chatLong : List Message → Except String Response :=
  fun _ => Except.ok ⟨[ContentBlock.text longText]⟩

/-- A completion client that answers every request with the text "S". -/
def chatS : List Message → Except String Response :=
  fun _ => Except.ok ⟨[ContentBlock.text "S"]⟩

/-- A completion client whose every call throws "boom". -/
def chatBoom : List Message → Except String Response :=
  fun _ => Except.error "boom"

/-- A tokenizer charging a flat 50000 tokens per message. -/
def tokFifty : String → Nat := fun _ => 50000

/-- A tokenizer charging a flat 200000 tokens per message. -/
def tokHuge : String → Nat := fun _ => 200000

/-- A zero tokenizer. -/
def tokZero : String → Nat := fun _ => 0

/-- A response carrying two tool-invocation requests, ids "id1", "id2". -/
def respTwoTools : Response :=
  ⟨[ContentBlock.toolUse ⟨"id1", "alpha", "x"⟩, ContentBlock.toolUse ⟨"id2", "beta", "y"⟩]⟩

/-- A completion client that always issues the two tool requests. -/
def chatTwoTools : List Message → Except String Response :=
  fun _ => Except.ok respTwoTools

/-- A registered tool named "alpha" that succeeds with "alpha-result". -/
def toolAlpha : Tool := ⟨"alpha", "test tool", fun _ => Except.ok "alpha-result"⟩

/-- A registered tool named "a". -/
def toolA : Tool := ⟨"a", "", fun _ => Except.ok ""⟩

/-- A registered tool named "b". -/
def toolB : Tool := ⟨"b", "", fun _ => Except.ok ""⟩

/-- A registered tool named "boomtool" whose execution throws. -/
def toolBoom : Tool := ⟨"boomtool", "", fun _ => Except.error "bad input"⟩

/-- A response with one non-text, non-tool-use block. -/
def respOtherOnly : Response := ⟨[ContentBlock.other "thinking"]⟩

/-- A completion client always returning `respOtherOnly`. -/
def chatOther : List Message → Except String Response :=
  fun _ => Except.ok respOtherOnly

/-! ## Helper lemmas -/

/-- `foldl` form of the token total, with a generalized accumulator. -/
theorem foldl_tokens (tok : String → Nat) (history : List ConversationEntry) (n : Nat) :
    history.foldl (fun sum h => sum + (tok h.content + 4)) n
      = n + (history.map (fun h => tok h.content + 4)).sum := by
  induction history generalizing n with
  | nil => simp
  | cons h t ih => simp [List.foldl_cons, ih]; omega

/-- The token total is the sum over entries of `tok content + 4`. -/
theorem getTotalTokens_eq_sum (tok : String → Nat) (history : List ConversationEntry) :
    getTotalTokens tok history = (history.map (fun h => tok h.content + 4)).sum := by
  unfold getTotalTokens
  simpa using foldl_tokens tok history 0

/-- Token totals add over list append. -/
theorem getTotalTokens_append (tok : String → Nat) (a b : List ConversationEntry) :
    getTotalTokens tok (a ++ b) = getTotalTokens tok a + getTotalTokens tok b := by
  simp [getTotalTokens_eq_sum]

/-- Token total of a cons. -/
theorem getTotalTokens_cons (tok : String → Nat) (e : ConversationEntry)
    (t : List ConversationEntry) :
    getTotalTokens tok (e :: t) = (tok e.content + 4) + getTotalTokens tok t := by
  simp [getTotalTokens_eq_sum]

/-- Token total split at any take/drop point. -/
theorem getTotalTokens_take_drop (tok : String → Nat) (history : List ConversationEntry)
    (n : Nat) :
    getTotalTokens tok history
      = getTotalTokens tok (history.take n) + getTotalTokens tok (history.drop n) := by
  conv_lhs => rw [← List.take_append_drop n history]
  exact getTotalTokens_append tok _ _

/-- Resolving a tool request keeps its correlation id. -/
theorem execToolUse_id (registry : List Tool) (toolUse : ToolUseBlock) :
    (execToolUse registry toolUse).tool_use_id = toolUse.id := by
  unfold execToolUse
  split
  · rfl
  · split <;> rfl

/-- Against a client that always requests a tool call, the loop burns all
its fuel, makes one completion call per unit of fuel, and falls through
to the fallback string. -/
theorem agentLoop_stuck (chatFn : List Message → Except String Response)
    (registry : List Tool)
    (hchat : ∀ msgs, ∃ r, chatFn msgs = Except.ok r ∧
      (toolUseBlocksOf r.content).isEmpty = false) :
    ∀ fuel messages, agentLoop chatFn registry fuel messages
      = Except.ok ⟨loopFallback, false, fuel⟩ := by
  intro fuel
  induction fuel with
  | zero => intro messages; rfl
  | succ n ih =>
    intro messages
    obtain ⟨r, hok, hne⟩ := hchat messages
    simp [agentLoop, loopStep, hok, hne, ih]

/-- If the completion client never fails, neither does the loop. -/
theorem agentLoop_total (chatFn : List Message → Except String Response)
    (registry : List Tool)
    (hchat : ∀ msgs, ∃ r, chatFn msgs = Except.ok r) :
    ∀ fuel messages, ∃ outcome,
      agentLoop chatFn registry fuel messages = Except.ok outcome := by
  intro fuel
  induction fuel with
  | zero => intro messages; exact ⟨_, rfl⟩
  | succ n ih =>
    intro messages
    obtain ⟨r, hok⟩ := hchat messages
    by_cases hempty : (toolUseBlocksOf r.content).isEmpty
    · refine ⟨⟨finalTextOf r.content, true, 1⟩, ?_⟩
      simp [agentLoop, loopStep, hok, hempty]
    · obtain ⟨outcome, hout⟩ := ih (messages ++
        [⟨"assistant", MessageContent.blocks r.content⟩,
         ⟨"user", MessageContent.toolResults (toolResultsFor registry r.content)⟩])
      refine ⟨⟨outcome.text, outcome.fromModel, outcome.chatCalls + 1⟩, ?_⟩
      simp [agentLoop, loopStep, hok, hempty, hout]

/-- If the completion client never fails, neither does `prune`. -/
theorem prune_total (tok : String → Nat) (chatFn : List Message → Except String Response)
    (history : List ConversationEntry) (now : Nat)
    (hchat : ∀ msgs, ∃ r, chatFn msgs = Except.ok r) :
    ∃ outcome, prune tok chatFn history now = Except.ok outcome := by
  unfold prune
  by_cases hp : needsPruning tok history
  · by_cases hmid : history.length / 2 < 2
    · refine ⟨⟨history, [], none⟩, ?_⟩
      simp [hp, hmid]
    · obtain ⟨r, hok⟩ := hchat
        [⟨"user", MessageContent.text (prunePrompt (transcriptOf (history.take (history.length / 2))))⟩]
      refine ⟨⟨⟨"assistant", "[Context Summary] " ++ joinedText r.content, now⟩ ::
          history.drop (history.length / 2),
        [⟨"summary", joinedText r.content⟩], some (joinedText r.content)⟩, ?_⟩
      simp [hp, hmid, hok]
  · refine ⟨⟨history, [], none⟩, ?_⟩
    simp [hp]

/-- If the completion client never fails, neither does `runAgent`. -/
theorem runAgent_total (tok : String → Nat) (chatFn : List Message → Except String Response)
    (registry : List Tool) (maxAgentIterations : Nat)
    (history0 : List ConversationEntry) (userMessage : String) (now : Nat)
    (hchat : ∀ msgs, ∃ r, chatFn msgs = Except.ok r) :
    ∃ result, runAgent tok chatFn registry maxAgentIterations history0 userMessage now
      = Except.ok result := by
  unfold runAgent
  by_cases hp : needsPruning tok (history0 ++ [⟨"user", userMessage, now⟩])
  · obtain ⟨o, ho⟩ := prune_total tok chatFn (history0 ++ [⟨"user", userMessage, now⟩]) now hchat
    obtain ⟨outcome, hout⟩ :=
      agentLoop_total chatFn registry hchat maxAgentIterations (getMessages o.history)
    refine ⟨⟨outcome.text,
      if outcome.fromModel then o.history ++ [⟨"assistant", outcome.text, now⟩] else o.history,
      o.dbRows, (if o.returned.isSome then 1 else 0) + outcome.chatCalls⟩, ?_⟩
    simp [hp, ho, hout]
  · obtain ⟨outcome, hout⟩ := agentLoop_total chatFn registry hchat maxAgentIterations
      (getMessages (history0 ++ [⟨"user", userMessage, now⟩]))
    refine ⟨⟨outcome.text,
      if outcome.fromModel then
        (history0 ++ [⟨"user", userMessage, now⟩]) ++ [⟨"assistant", outcome.text, now⟩]
      else history0 ++ [⟨"user", userMessage, now⟩],
      [], 0 + outcome.chatCalls⟩, ?_⟩
    simp [hp, hout]

/-! ## Claims -/

/-- C6: `needsPruning()` returns true iff the total token count — the sum
over entries of `tok content + 4` — exceeds 0.8 × 150000 = 120000; it is
true at a total of 120001 tokens and false at exactly 120000. -/
theorem c6_pruning_threshold (tok : String → Nat) (history : List ConversationEntry) :
    (needsPruning tok history = true ↔ 120000 < getTotalTokens tok history)
  ∧ getTotalTokens tok history = (history.map (fun h => tok h.content + 4)).sum
  ∧ needsPruning (fun _ => 119996) [⟨"user", "x", 0⟩] = false
  ∧ needsPruning (fun _ => 119997) [⟨"user", "x", 0⟩] = true := by
  refine ⟨?_, getTotalTokens_eq_sum tok history, by decide, by decide⟩
  unfold needsPruning pruneLimit MAX_CONTEXT_TOKENS
  norm_num

/-- C7: `prune()` is a no-op returning the absent result and leaving
history untouched on a history of 3 or fewer entries, even over the
threshold, and likewise whenever the history is not over the threshold. -/
theorem c7_prune_noop_guard (tok : String → Nat)
    (chatFn : List Message → Except String Response)
    (history : List ConversationEntry) (now : Nat) :
    (history.length ≤ 3 → prune tok chatFn history now = Except.ok ⟨history, [], none⟩)
  ∧ (needsPruning tok history = false →
      prune tok chatFn history now = Except.ok ⟨history, [], none⟩) := by
  constructor
  · intro hlen
    unfold prune
    by_cases hp : needsPruning tok history
    · have hmid : history.length / 2 < 2 := by omega
      simp [hp, hmid]
    · simp [hp]
  · intro hp
    unfold prune
    simp [hp]

/-- C7 witness: a two-entry history over the threshold (flat 200000-token
entries), against a client that would even fail: prune returns the
absent result and the history is unchanged. -/
theorem c7_witness :
    prune tokHuge chatBoom histTwo 0 = Except.ok ⟨histTwo, [], none⟩ :=
  (c7_prune_noop_guard tokHuge chatBoom histTwo 0).1 (by decide)

/-- C8: `registerTool` fails with the duplicate-tool error exactly when
the name is already registered; on success the registry maps the name to
the new descriptor and name uniqueness is preserved. -/
theorem c8_register_unique (registry : List Tool) (tool : Tool) :
    ((∃ e, registerTool registry tool = Except.error e)
        ↔ registryHas registry tool.name = true)
  ∧ (∀ registry2, registerTool registry tool = Except.ok registry2 →
      getTool registry2 tool.name = some tool
      ∧ ((registry.map Tool.name).Nodup → (registry2.map Tool.name).Nodup)) := by
  constructor
  · constructor
    · intro ⟨e, he⟩
      by_contra hdup
      unfold registerTool at he
      simp [hdup] at he
    · intro hdup
      refine ⟨"Tool \"" ++ tool.name ++ "\" is already registered.", ?_⟩
      unfold registerTool
      simp [hdup]
  · intro registry2 hok
    by_cases hdup : registryHas registry tool.name
    · unfold registerTool at hok
      simp [hdup] at hok
    · unfold registerTool at hok
      simp [hdup] at hok
      have hnm : ∀ t ∈ registry, (t.name == tool.name) = false := by
        intro t ht
        have := hdup
        unfold registryHas at this
        rw [List.any_eq_true] at this
        push_neg at this
        simpa using this t ht
      constructor
      · rw [← hok]
        unfold getTool
        rw [List.find?_append]
        have hnone : registry.find? (fun t => t.name == tool.name) = none := by
          rw [List.find?_eq_none]
          intro t ht
          simp [hnm t ht]
        simp [hnone]
      · intro hnodup
        rw [← hok, List.map_append, List.nodup_append]
        refine ⟨hnodup, by simp, ?_⟩
        intro a ha hb
        simp at hb
        subst hb
        simp only [List.mem_map] at ha
        obtain ⟨t, ht, hname⟩ := ha
        have := hnm t ht
        rw [beq_eq_false_iff_ne] at this
        exact this hname

/-- C8 witness: registering "b" next to "a" succeeds, the registry then
resolves "b" to the new descriptor, and names stay unique. -/
theorem c8_witness :
    getTool [toolA, toolB] toolB.name = some toolB
  ∧ ([toolA, toolB].map Tool.name).Nodup := by
  have h := (c8_register_unique [toolA] toolB).2 [toolA, toolB] rfl
  exact ⟨h.1, h.2 (by decide)⟩

/-- C3: when the summarization completion call throws, `prune()` and
`compact()` leave the in-memory history unchanged, write no summary row,
and propagate the failure: each either took a no-op guard (history and
storage untouched, no chat call made) or surfaces the chat error. -/
theorem c3_atomic_failure (tok : String → Nat)
    (chatFn : List Message → Except String Response)
    (history : List ConversationEntry) (now : Nat) (e : String)
    (hchat : ∀ msgs, chatFn msgs = Except.error e) :
    (prune tok chatFn history now = Except.ok ⟨history, [], none⟩
      ∨ prune tok chatFn history now = Except.error e)
  ∧ (compact tok chatFn history now
        = Except.ok ⟨history, [], "Not enough conversation history to compact."⟩
      ∨ compact tok chatFn history now = Except.error e) := by
  constructor
  · unfold prune
    by_cases hp : needsPruning tok history
    · by_cases hmid : history.length / 2 < 2
      · left; simp [hp, hmid]
      · right; simp [hp, hmid, hchat]
    · left; simp [hp]
  · unfold compact
    by_cases hlen : history.length < 4
    · left; simp [hlen]
    · right; simp [hlen, hchat]

/-- C3 witness: a four-entry over-threshold history against a client that
throws "boom": both compaction paths leave history untouched, write
nothing, and surface the failure. -/
theorem c3_witness :
    (prune tokHuge chatBoom histFour 0 = Except.ok ⟨histFour, [], none⟩
      ∨ prune tokHuge chatBoom histFour 0 = Except.error "boom")
  ∧ (compact tokHuge chatBoom histFour 0
        = Except.ok ⟨histFour, [], "Not enough conversation history to compact."⟩
      ∨ compact tokHuge chatBoom histFour 0 = Except.error "boom") :=
  c3_atomic_failure tokHuge chatBoom histFour 0 "boom" (fun _ => rfl)

/-- C4: for a completion response carrying tool-invocation requests, the
synthetic user turn the loop appends carries exactly one `tool_result`
block per request, with `tool_use_id`s equal to the request ids in the
order the model issued them. -/
theorem c4_tool_correlation (chatFn : List Message → Except String Response)
    (registry : List Tool) (messages : List Message) (response : Response)
    (hchat : chatFn messages = Except.ok response)
    (hne : (toolUseBlocksOf response.content).isEmpty = false) :
    (toolResultsFor registry response.content).length
        = (toolUseBlocksOf response.content).length
  ∧ (toolResultsFor registry response.content).map ToolResultBlock.tool_use_id
        = (toolUseBlocksOf response.content).map ToolUseBlock.id
  ∧ loopStep chatFn registry messages = Except.ok (StepOut.next (messages ++
      [⟨"assistant", MessageContent.blocks response.content⟩,
       ⟨"user", MessageContent.toolResults (toolResultsFor registry response.content)⟩])) := by
  refine ⟨by simp [toolResultsFor], ?_, by simp [loopStep, hchat, hne]⟩
  unfold toolResultsFor
  rw [List.map_map]
  apply List.map_congr_left
  intro x _
  exact execToolUse_id registry x

/-- C4 witness: a response requesting tools with ids "id1" then "id2"
(one registered, one not) yields a tool-result turn with exactly those
ids in that order. -/
theorem c4_witness :
    (toolResultsFor [toolAlpha] respTwoTools.content).map ToolResultBlock.tool_use_id
        = ["id1", "id2"]
  ∧ loopStep chatTwoTools [toolAlpha] [] = Except.ok (StepOut.next ([] ++
      [⟨"assistant", MessageContent.blocks respTwoTools.content⟩,
       ⟨"user", MessageContent.toolResults (toolResultsFor [toolAlpha] respTwoTools.content)⟩])) := by
  have h := c4_tool_correlation chatTwoTools [toolAlpha] [] respTwoTools rfl rfl
  exact ⟨h.2.1, h.2.2⟩

/-- C5: an unknown tool name yields the structured payload
`JSON.stringify(error: Unknown tool: name)` as the invocation result; a
registered tool that throws yields the caught, structured failure
payload; in both cases the loop proceeds to its next iteration, and tool
failures never surface as an error from `runAgent` (only a completion
provider failure can). -/
theorem c5_tool_error_safety (registry : List Tool) (toolUse : ToolUseBlock) :
    (getTool registry toolUse.name = none →
      execToolUse registry toolUse
        = ⟨toolUse.id, jsonError ("Unknown tool: " ++ toolUse.name)⟩)
  ∧ (∀ tool msg, getTool registry toolUse.name = some tool →
      tool.execute toolUse.input = Except.error msg →
      execToolUse registry toolUse
        = ⟨toolUse.id, jsonError ("Tool execution failed: " ++ msg)⟩)
  ∧ (∀ chatFn messages response, chatFn messages = Except.ok response →
      (toolUseBlocksOf response.content).isEmpty = false →
      loopStep chatFn registry messages = Except.ok (StepOut.next (messages ++
        [⟨"assistant", MessageContent.blocks response.content⟩,
         ⟨"user", MessageContent.toolResults (toolResultsFor registry response.content)⟩])))
  ∧ (∀ tok chatFn maxAgentIterations history0 userMessage now,
      (∀ msgs, ∃ r, chatFn msgs = Except.ok r) →
      ∃ result, runAgent tok chatFn registry maxAgentIterations history0 userMessage now
        = Except.ok result) := by
  refine ⟨?_, ?_, ?_, ?_⟩
  · intro hnone
    unfold execToolUse
    rw [hnone]
  · intro tool msg hsome herr
    unfold execToolUse
    rw [hsome]
    simp [herr]
  · intro chatFn messages response hok hne
    simp [loopStep, hok, hne]
  · intro tok chatFn maxAgentIterations history0 userMessage now hchat
    exact runAgent_total tok chatFn registry maxAgentIterations history0 userMessage now hchat

/-- C5 witness: an unregistered name and a throwing registered tool both
produce structured error payloads carrying the request id. -/
theorem c5_witness :
    execToolUse [] ⟨"i1", "nosuch", "x"⟩
      = ⟨"i1", jsonError ("Unknown tool: " ++ "nosuch")⟩
  ∧ execToolUse [toolBoom] ⟨"i2", "boomtool", "x"⟩
      = ⟨"i2", jsonError ("Tool execution failed: " ++ "bad input")⟩ :=
  ⟨(c5_tool_error_safety [] ⟨"i1", "nosuch", "x"⟩).1 rfl,
   (c5_tool_error_safety [toolBoom] ⟨"i2", "boomtool", "x"⟩).2.1 toolBoom "bad input" rfl rfl⟩

/-- C10: when a completion response has no tool-use blocks and no text
blocks, its extracted final text is the literal "(no response)"; the loop
iteration that receives it terminates with that text; and `runAgent`
returns it and appends it to the Context Manager history as the
assistant entry. -/
theorem c10_no_response (response : Response)
    (hnotool : toolUseBlocksOf response.content = [])
    (hnotext : response.content.filterMap textOf = []) :
    finalTextOf response.content = "(no response)"
  ∧ (∀ chatFn registry messages fuel, chatFn messages = Except.ok response →
      agentLoop chatFn registry (fuel + 1) messages
        = Except.ok ⟨"(no response)", true, 1⟩)
  ∧ (∀ (tok : String → Nat) chatFn (registry : List Tool) maxAgentIterations
        history0 userMessage (now : Nat),
      1 ≤ maxAgentIterations →
      needsPruning tok (history0 ++ [⟨"user", userMessage, now⟩]) = false →
      chatFn (getMessages (history0 ++ [⟨"user", userMessage, now⟩]))
        = Except.ok response →
      runAgent tok chatFn registry maxAgentIterations history0 userMessage now =
        Except.ok ⟨"(no response)",
          (history0 ++ [⟨"user", userMessage, now⟩])
            ++ [⟨"assistant", "(no response)", now⟩],
          [], 1⟩) := by
  have hfinal : finalTextOf response.content = "(no response)" := by
    unfold finalTextOf joinedText
    rw [hnotext]
    rfl
  have hstep : ∀ chatFn registry messages fuel, chatFn messages = Except.ok response →
      agentLoop chatFn registry (fuel + 1) messages
        = Except.ok ⟨"(no response)", true, 1⟩ := by
    intro chatFn registry messages fuel hchat
    simp [agentLoop, loopStep, hchat, hnotool, hfinal]
  refine ⟨hfinal, hstep, ?_⟩
  intro tok chatFn registry maxAgentIterations history0 userMessage now hmax hp hchat
  obtain ⟨m, rfl⟩ : ∃ m, maxAgentIterations = m + 1 :=
    ⟨maxAgentIterations - 1, by omega⟩
  unfold runAgent
  simp [hp, hstep chatFn registry _ m hchat]

/-- C10 witness: a response consisting of a single thinking block — no
text, no tool use — makes `runAgent` answer "(no response)" and record it
as the assistant turn. -/
theorem c10_witness :
    runAgent tokZero chatOther [] 1 [] "hi" 0 =
      Except.ok ⟨"(no response)",
        ([] ++ [⟨"user", "hi", 0⟩]) ++ [⟨"assistant", "(no response)", 0⟩],
        [], 1⟩ :=
  (c10_no_response respOtherOnly rfl rfl).2.2 tokZero chatOther [] 1 [] "hi" 0
    (by decide) (by decide) rfl

/-- C9: on a history of exactly 4 entries, `compact()` does not take the
"Not enough conversation history to compact." guard: the summarization
request carries an empty transcript (no entries precede the kept tail),
the summary entry is prepended, and the history grows from 4 to 5. -/
theorem c9_compact_four_entries (tok : String → Nat)
    (chatFn : List Message → Except String Response)
    (history : List ConversationEntry) (now : Nat) (response : Response)
    (hlen : history.length = 4)
    (hchat : chatFn [⟨"user", MessageContent.text
        (compactPrompt (transcriptOf (history.take (history.length - 4))))⟩]
      = Except.ok response) :
    transcriptOf (history.take (history.length - 4)) = ""
  ∧ ∃ o, compact tok chatFn history now = Except.ok o
      ∧ o.history = ⟨"assistant", "[Context Summary] " ++ joinedText response.content, now⟩
          :: history
      ∧ o.history.length = 5 := by
  have htake : history.take (history.length - 4) = [] := by
    rw [hlen]
    simp
  have htr : transcriptOf (history.take (history.length - 4)) = "" := by
    rw [htake]
    rfl
  have hdrop : history.drop (history.length - 4) = history := by
    rw [hlen]
    simp
  have hlt : ¬ history.length < 4 := by omega
  refine ⟨htr, ?_⟩
  unfold compact
  simp only [if_neg hlt, hchat, hdrop]
  refine ⟨_, rfl, rfl, ?_⟩
  simp [hlen]

/-- C9 witness: a concrete 4-entry history with a client answering "S":
the transcript sent is empty and the history afterwards is the summary
entry followed by all four originals. -/
theorem c9_witness :
    transcriptOf (histFour.take (histFour.length - 4)) = ""
  ∧ ∃ o, compact tokZero chatS histFour 9 = Except.ok o
      ∧ o.history = ⟨"assistant", "[Context Summary] " ++ joinedText [ContentBlock.text "S"], 9⟩
          :: histFour
      ∧ o.history.length = 5 :=
  c9_compact_four_entries tokZero chatS histFour 9 ⟨[ContentBlock.text "S"]⟩ (by decide) rfl

/-- C2 counterexample: `compact()` on a five-entry history of empty
contents, with the summarization client answering 50 characters, succeeds
with the invariant length 5 = kept-tail 4 + 1 — but the total token count
(with `String.length` standing for the tokenizer) rises from 20 to 88, so
the claimed unconditional strict decrease versus the summarized segment
(4 tokens) is false. -/
theorem c2_counterexample :
    (okValue (compact String.length chatLong histFive 9)).map
        (fun o => decide (getTotalTokens String.length o.history
          < getTotalTokens String.length histFive))
      = some false
  ∧ (okValue (compact String.length chatLong histFive 9)).map
        (fun o => (o.history.length, getTotalTokens String.length o.history))
      = some (5, 88)
  ∧ getTotalTokens String.length histFive = 20
  ∧ getTotalTokens String.length (histFive.take (histFive.length - 4)) = 4 := by
  refine ⟨by decide, by decide, by decide, by decide⟩

/-- C2 (amended): after a `prune()` that summarized, or a `compact()` on
at least 4 entries, the history is the kept tail plus one prepended
assistant entry whose content carries the "[Context Summary] " marker;
the total token count strictly decreases versus the pre-compaction value
provided the summary entry costs fewer tokens than the summarized
segment — the code does not bound the summary, so the decrease is
conditional on that. -/
theorem c2_compaction_invariant (tok : String → Nat)
    (chatFn : List Message → Except String Response)
    (history : List ConversationEntry) (now : Nat) :
    (∀ o s, prune tok chatFn history now = Except.ok o → o.returned = some s →
      o.history.length = (history.drop (history.length / 2)).length + 1
      ∧ o.history.head? = some ⟨"assistant", "[Context Summary] " ++ s, now⟩
      ∧ (tok ("[Context Summary] " ++ s) + 4
            < getTotalTokens tok (history.take (history.length / 2)) →
          getTotalTokens tok o.history < getTotalTokens tok history))
  ∧ (∀ o, compact tok chatFn history now = Except.ok o → 4 ≤ history.length →
      ∃ s, o.history.length = (history.drop (history.length - 4)).length + 1
      ∧ o.history.head? = some ⟨"assistant", "[Context Summary] " ++ s, now⟩
      ∧ (tok ("[Context Summary] " ++ s) + 4
            < getTotalTokens tok (history.take (history.length - 4)) →
          getTotalTokens tok o.history < getTotalTokens tok history)) := by
  constructor
  · intro o s ho hs
    unfold prune at ho
    by_cases hp : needsPruning tok history
    · by_cases hmid : history.length / 2 < 2
      · simp [hp, hmid] at ho
        rw [← ho] at hs
        simp at hs
      · cases hchat2 : chatFn [⟨"user", MessageContent.text
            (prunePrompt (transcriptOf (history.take (history.length / 2))))⟩] with
        | error e =>
          simp [hp, hmid, hchat2] at ho
        | ok r =>
          simp [hp, hmid, hchat2] at ho
          rw [← ho] at hs ⊢
          simp at hs
          subst hs
          refine ⟨by simp, rfl, ?_⟩
          intro hless
          rw [getTotalTokens_cons]
          dsimp only
          rw [getTotalTokens_take_drop tok history (history.length / 2)]
          omega
    · simp [hp] at ho
      rw [← ho] at hs
      simp at hs
  · intro o ho hge
    have hlt : ¬ history.length < 4 := by omega
    unfold compact at ho
    cases hchat2 : chatFn [⟨"user", MessageContent.text
        (compactPrompt (transcriptOf (history.take (history.length - 4))))⟩] with
    | error e =>
      simp [hlt, hchat2] at ho
    | ok r =>
      simp [hlt, hchat2] at ho
      refine ⟨joinedText r.content, ?_⟩
      rw [← ho]
      refine ⟨by simp, rfl, ?_⟩
      intro hless
      rw [getTotalTokens_cons]
      dsimp only
      rw [getTotalTokens_take_drop tok history (history.length - 4)]
      omega

/-- C2 witness: pruning a four-entry over-threshold history (flat
50000-token entries) against a client answering "S": the summary entry
(50004 tokens) is far below the summarized half (100008 tokens), so the
post-compaction total strictly decreases. -/
theorem c2_witness :
    getTotalTokens tokFifty
        [⟨"assistant", "[Context Summary] " ++ "S", 9⟩, ⟨"user", "q2", 2⟩,
         ⟨"assistant", "a2", 3⟩]
      < getTotalTokens tokFifty histFour :=
  (((c2_compaction_invariant tokFifty chatS histFour 9).1
      ⟨[⟨"assistant", "[Context Summary] " ++ "S", 9⟩, ⟨"user", "q2", 2⟩,
        ⟨"assistant", "a2", 3⟩],
       [⟨"summary", "S"⟩], some "S"⟩ "S" rfl rfl).2.2) (by decide)

/-- C1 counterexample: with a 3-entry initial history of 120004-token
entries (the appended user turn makes 4 entries at 440016 tokens, over
threshold), `maxAgentIterations = 2`, and a scripted client that always
requests a tool call and never returns text, `runAgent` returns the fixed
fallback after 3 completion calls, not the claimed 2: the pruning step
consumed one completion call of its own. -/
theorem c1_counterexample :
    (okValue (runAgent tokHeavy chatToolOnly [] 2 histThree "hi" 3)).map AgentResult.chatCalls
      = some 3
  ∧ (okValue (runAgent tokHeavy chatToolOnly [] 2 histThree "hi" 3)).map AgentResult.reply
      = some loopFallback := by
  constructor
  · rfl
  · rfl

/-- C1 (amended): against a completion client whose every response
carries at least one tool-invocation request and never final text,
`runAgent` terminates and returns the fixed fallback string; the agent
loop itself makes exactly `maxAgentIterations` completion calls, and one
further completion call precedes the loop exactly when the history with
the appended user turn is over the pruning threshold and at least 4
entries long. -/
theorem c1_loop_exhaustion (tok : String → Nat)
    (chatFn : List Message → Except String Response) (registry : List Tool)
    (maxAgentIterations : Nat) (history0 : List ConversationEntry)
    (userMessage : String) (now : Nat)
    (hchat : ∀ msgs, ∃ r, chatFn msgs = Except.ok r ∧
      (toolUseBlocksOf r.content).isEmpty = false) :
    ∃ history2 dbRows,
      runAgent tok chatFn registry maxAgentIterations history0 userMessage now
        = Except.ok ⟨loopFallback, history2, dbRows,
            pruneChatCalls tok (history0 ++ [⟨"user", userMessage, now⟩])
              + maxAgentIterations⟩ := by
  have hloop := agentLoop_stuck chatFn registry hchat maxAgentIterations
  have hlen1 : (history0 ++ [(⟨"user", userMessage, now⟩ : ConversationEntry)]).length
      = history0.length + 1 := by simp
  unfold runAgent
  by_cases hp : needsPruning tok
      (history0 ++ [(⟨"user", userMessage, now⟩ : ConversationEntry)])
  · by_cases hmid : (history0.length + 1) / 2 < 2
    · have hprune : prune tok chatFn
            (history0 ++ [(⟨"user", userMessage, now⟩ : ConversationEntry)]) now
          = Except.ok ⟨history0 ++ [⟨"user", userMessage, now⟩], [], none⟩ := by
        unfold prune
        simp [hp, hlen1, hmid]
      have hcalls : pruneChatCalls tok
          (history0 ++ [(⟨"user", userMessage, now⟩ : ConversationEntry)]) = 0 := by
        unfold pruneChatCalls
        rw [if_neg]
        rintro ⟨-, h4⟩
        rw [hlen1] at h4
        omega
      refine ⟨history0 ++ [⟨"user", userMessage, now⟩], [], ?_⟩
      simp [hp, hprune, hloop, hcalls]
    · obtain ⟨r, hok, -⟩ := hchat [⟨"user", MessageContent.text (prunePrompt (transcriptOf
        ((history0 ++ [(⟨"user", userMessage, now⟩ : ConversationEntry)]).take
          ((history0.length + 1) / 2))))⟩]
      have hprune : prune tok chatFn
            (history0 ++ [(⟨"user", userMessage, now⟩ : ConversationEntry)]) now
          = Except.ok ⟨⟨"assistant", "[Context Summary] " ++ joinedText r.content, now⟩ ::
              (history0 ++ [(⟨"user", userMessage, now⟩ : ConversationEntry)]).drop
                ((history0.length + 1) / 2),
            [⟨"summary", joinedText r.content⟩], some (joinedText r.content)⟩ := by
        unfold prune
        simp [hp, hlen1, hmid, hok]
      have hcalls : pruneChatCalls tok
          (history0 ++ [(⟨"user", userMessage, now⟩ : ConversationEntry)]) = 1 := by
        unfold pruneChatCalls
        rw [if_pos]
        refine ⟨hp, ?_⟩
        rw [hlen1]
        omega
      refine ⟨⟨"assistant", "[Context Summary] " ++ joinedText r.content, now⟩ ::
          (history0 ++ [(⟨"user", userMessage, now⟩ : ConversationEntry)]).drop
            ((history0.length + 1) / 2),
        [⟨"summary", joinedText r.content⟩], ?_⟩
      simp [hp, hprune, hloop, hcalls]
  · have hcalls : pruneChatCalls tok
        (history0 ++ [(⟨"user", userMessage, now⟩ : ConversationEntry)]) = 0 := by
      unfold pruneChatCalls
      rw [if_neg]
      rintro ⟨h1, -⟩
      exact hp h1
    refine ⟨history0 ++ [⟨"user", userMessage, now⟩], [], ?_⟩
    simp [hp, hloop, hcalls]

/-- C1 witness: empty starting history (under threshold), budget 2, a
scripted always-tool-calling client: the fallback comes back after
exactly 0 + 2 completion calls. -/
theorem c1_witness :
    ∃ history2 dbRows,
      runAgent tokZero chatToolOnly [] 2 [] "hi" 0
        = Except.ok ⟨loopFallback, history2, dbRows,
            pruneChatCalls tokZero ([] ++ [⟨"user", "hi", 0⟩]) + 2⟩ :=
  c1_loop_exhaustion tokZero chatToolOnly [] 2 [] "hi" 0
    (fun _ => ⟨respToolOnly, rfl, rfl⟩)

end Mikky
